import Mathlib

/-!
Verification of the markdown-math-to-word core: the `MathToImage`
rasterization pipeline (`convertMathToImage` and the component render
branches) and the `App.handleCopy` export / clipboard handler.  Every
definition below is a shallow embedding of a specific piece of the
TypeScript source, with the source location recorded in its doc comment.
-/

namespace MD2Word

/-! ## Staging Renderer: base font size (MathToImage lines 67–84) -/

/-- Base font size (px) of the staging container, from `convertMathToImage`
lines 67–84: with a parsed parent font size `p`, block mode uses
`Math.max(p * 1.1, 18)` and inline mode `Math.max(p * 1.0, 14)`;
without a parent size, block mode is `20` and inline mode `16`. -/
def baseFontSize (parentFontSize : Option ℚ) (displayMode : Bool) : ℚ :=
  match parentFontSize with
  | some p => if displayMode then max (p * (11/10)) 18 else max (p * 1) 14
  | none => if displayMode then 20 else 16

/-! ## Resolution Model (MathToImage lines 158–188) -/

/-- JS `window.devicePixelRatio || 1` (line 159): a falsy (zero) ratio is
replaced by `1`; every other value is kept unchanged. -/
def effectiveDPR (d : ℚ) : ℚ := if d = 0 then 1 else d

/-- `const scale = targetDPI / (72 * devicePixelRatio)` (line 175). -/
def rasterScale (targetDPI d : ℚ) : ℚ := targetDPI / (72 * effectiveDPR d)

/-- The claim's wording of the same scale, with the device pixel ratio
floor-clamped to 1 (`max d 1`) instead of the code's `d || 1`.  This
definition follows the spec's words and exists only to be compared with
`rasterScale`, which is the code's formula. -/
def rasterScaleClaimClamped (targetDPI d : ℚ) : ℚ := targetDPI / (72 * max d 1)

/-- `actualWidth` / `actualHeight` (lines 162–172):
`Math.max(offset || scroll, parseFloat(style) || 0, rect || 0)`.
A `parseFloat` that yields NaN is modelled as `none`. -/
def actualSize (offset scroll : ℚ) (styleSize : Option ℚ) (rect : ℚ) : ℚ :=
  max (if offset = 0 then scroll else offset) (max (styleSize.getD 0) rect)

/-- Capture dimension handed to html2canvas (lines 184–185):
`Math.ceil(actual * scale)`. -/
def captureDim (actual targetDPI d : ℚ) : ℤ := ⌈actual * rasterScale targetDPI d⌉

/-! ## Staging Renderer: centering adjustment (MathToImage lines 122–151) -/

/-- Measurements taken at lines 126–131: the `.katex` element's offset
relative to the staging container and both bounding boxes. -/
structure CenterMeasure where
  offsetX : ℚ
  offsetY : ℚ
  containerW : ℚ
  containerH : ℚ
  katexW : ℚ
  katexH : ℚ
  deriving DecidableEq

/-- Unit of a CSS length as it appears in the staging container's inline
padding: the shorthands set at lines 89 and 98 are em-denominated, the
values written back at lines 145–148 are px-denominated. -/
inductive CssUnit where
  | px
  | em
  deriving DecidableEq

/-- A CSS length: a number together with its unit.  `parseFloat` (lines
136–139) reads only the number and drops the unit. -/
structure CssLen where
  val : ℚ
  unit : CssUnit
  deriving DecidableEq

/-- How many physical pixels one unit is worth at font size `f` px:
1 for `px`, `f` for `em`. -/
def unitScale (f : ℚ) : CssUnit → ℚ
  | CssUnit.px => 1
  | CssUnit.em => f

/-- Physical pixel value of a CSS length at font size `f` px. -/
def toPx (f : ℚ) (l : CssLen) : ℚ := l.val * unitScale f l.unit

/-- The four padding sides of the staging container. -/
structure PaddingState where
  top : CssLen
  right : CssLen
  bottom : CssLen
  left : CssLen
  deriving DecidableEq

/-- The block-mode initial padding `'0.8em 1.0em'` (line 89).  The parse
of lines 135–139 splits the shorthand into two components and fills the
four sides through the `[2] || [0]` and `[3] || [1] || [0]` fallbacks:
top = bottom = 0.8em, right = left = 1.0em. -/
def blockPadding : PaddingState :=
  { top := ⟨4/5, CssUnit.em⟩
    right := ⟨1, CssUnit.em⟩
    bottom := ⟨4/5, CssUnit.em⟩
    left := ⟨1, CssUnit.em⟩ }

/-- The inline-mode initial padding `'0.3em 0.5em'` (line 98), parsed the
same way: top = bottom = 0.3em, right = left = 0.5em. -/
def inlinePadding : PaddingState :=
  { top := ⟨3/10, CssUnit.em⟩
    right := ⟨1/2, CssUnit.em⟩
    bottom := ⟨3/10, CssUnit.em⟩
    left := ⟨1/2, CssUnit.em⟩ }

/-- `adjustX = (containerRect.width - katexRect.width) / 2 - offsetX` (line 143);
a px quantity, since the rects measure physical pixels. -/
def adjustX (m : CenterMeasure) : ℚ := (m.containerW - m.katexW) / 2 - m.offsetX

/-- `adjustY = (containerRect.height - katexRect.height) / 2 - offsetY` (line 142). -/
def adjustY (m : CenterMeasure) : ℚ := (m.containerH - m.katexH) / 2 - m.offsetY

/-- The padding rewrite of lines 134–148: it fires when
`Math.abs(offsetX) > 1 || Math.abs(offsetY) > 1` (the raw offsets, not the
distance from centered).  Each side's current length is read with
`parseFloat`, which strips the unit and keeps the bare number (for the
em shorthand `'0.8em 1.0em'` this yields 0.8 / 1.0 / 0.8 / 1.0), the px
adjustment is added to that bare number, and the result is written back
as `` `${Math.max(0, n ± adjust)}px` `` — a **px** length whatever unit
the number was parsed from. -/
def recenterPadding (m : CenterMeasure) (p : PaddingState) : PaddingState :=
  if 1 < |m.offsetX| ∨ 1 < |m.offsetY| then
    { top := ⟨max 0 (p.top.val + adjustY m), CssUnit.px⟩
      right := ⟨max 0 (p.right.val - adjustX m), CssUnit.px⟩
      bottom := ⟨max 0 (p.bottom.val - adjustY m), CssUnit.px⟩
      left := ⟨max 0 (p.left.val + adjustX m), CssUnit.px⟩ }
  else p

/-! ## Formula Lifecycle Controller (MathToImage lines 42–223)

The component keeps `imageDataUrl` and `isLoading` in React state.  The
effect at lines 45–223 has **no cleanup function and no staleness
guard**: every time its dependencies change it sets `isLoading := true`
and starts a fresh async `convertMathToImage`, and every conversion that
resolves unconditionally runs `setImageDataUrl(...)` (line 200) and
`setIsLoading(false)` (line 206 / 217), whichever request it belonged to. -/

/-- An event of the per-occurrence lifecycle: a request is issued (the
effect runs for a changed `FormulaRequest`, identified by a tag), or an
in-flight conversion resolves and writes its result to component state. -/
inductive FxEvent where
  | issue (r : ℕ)
  | resolve (r : ℕ)
  deriving DecidableEq

/-- Visible component state plus the set of in-flight conversions.
`committed r` records which request's data URL the state currently holds. -/
structure FxState where
  inFlight : List ℕ
  committed : Option ℕ
  loading : Bool
  deriving DecidableEq

/-- One step of the code's behaviour: `issue` models the effect body
(lines 221–222: `setIsLoading(true); convertMathToImage()`); `resolve`
models an in-flight conversion reaching lines 200–206, which writes the
data URL computed from **its own** request and clears the loading flag,
with no comparison against the latest request. -/
def fxStep (s : FxState) : FxEvent → FxState
  | .issue r => { s with inFlight := r :: s.inFlight, loading := true }
  | .resolve r =>
      if r ∈ s.inFlight then
        { inFlight := s.inFlight.erase r, committed := some r, loading := false }
      else s

/-- Run a trace of lifecycle events from the initial mount state
(`useState(true)` at line 43, no image, nothing in flight). -/
def fxRun (es : List FxEvent) : FxState :=
  es.foldl fxStep { inFlight := [], committed := none, loading := true }

/-! ## Staging container lifetime (MathToImage lines 45–218) -/

/-- Which primitives of one `convertMathToImage` attempt fail.
`mathEmpty` is the early return at lines 47–51; `appendThrows` covers a
failure of `document.body.appendChild` (line 106) before the container is
in the document; the remaining flags are the fallible steps after
attachment: `katex.render` (line 110), the centering measurement
(lines 122–151), `html2canvas` (line 178), and the two `toDataURL`
encodings (lines 194 and 198). -/
structure AttemptEnv where
  mathEmpty : Bool
  appendThrows : Bool
  katexThrows : Bool
  measureThrows : Bool
  captureThrows : Bool
  pngThrows : Bool
  jpegThrows : Bool
  deriving DecidableEq

/-- Observable outcome of one attempt: how often the staging container was
attached / detached, whether it is still in the document, whether a data
URL was committed, and the final loading flag. -/
structure AttemptState where
  attachCount : ℕ
  detachCount : ℕ
  inDoc : Bool
  imageSet : Bool
  loading : Bool
  deriving DecidableEq

/-- The guarded cleanup `if (tempDiv && tempDiv.parentNode)
document.body.removeChild(tempDiv)` (lines 203–205 and 211–213): it
detaches only when the container is still in the document. -/
def cleanupStep (s : AttemptState) : AttemptState :=
  if s.inDoc then { s with detachCount := s.detachCount + 1, inDoc := false } else s

/-- One whole `convertMathToImage` attempt (lines 46–218).  Any exception
after attachment lands in the outer `catch` (lines 207–218), which runs
the same guarded cleanup and then `setIsLoading(false)`; the success path
(lines 200–206) sets the data URL, runs the guarded cleanup and clears
the loading flag.  An encoding failure reaches the catch only when *both*
`toDataURL` calls throw (the PNG failure alone is handled at line 198). -/
def runAttempt (e : AttemptEnv) : AttemptState :=
  if e.mathEmpty then
    { attachCount := 0, detachCount := 0, inDoc := false, imageSet := false, loading := false }
  else if e.appendThrows then
    { attachCount := 0, detachCount := 0, inDoc := false, imageSet := false, loading := false }
  else
    let s : AttemptState :=
      { attachCount := 1, detachCount := 0, inDoc := true, imageSet := false, loading := true }
    if e.katexThrows || e.measureThrows || e.captureThrows || (e.pngThrows && e.jpegThrows) then
      { cleanupStep s with loading := false }
    else
      { cleanupStep { s with imageSet := true } with loading := false }

/-! ## Rasterizer encoding fallback (MathToImage lines 190–199) -/

/-- The two encodings the code can emit. -/
inductive ImgFormat where
  | png
  | jpeg
  deriving DecidableEq

/-- `canvas.toDataURL` fallback (lines 190–199): first
`toDataURL('image/png', quality)`; if that throws,
`toDataURL('image/jpeg', Math.max(quality, 0.8))`; if that throws too the
exception escapes to the outer catch and no data URL is produced. -/
def encodeCanvas (pngOk jpegOk : Bool) (quality : ℚ) : Option (ImgFormat × ℚ) :=
  if pngOk then some (ImgFormat.png, quality)
  else if jpegOk then some (ImgFormat.jpeg, max quality (4/5))
  else none

/-! ## Component render branches (MathToImage lines 225–423) -/

/-- What a `MathToImage` occurrence renders into the preview tree:
the loading placeholder span `.math-loading` (lines 226–258), the final
`<img class="math-image">` whose `src` is the data URL (lines 304–421),
the KaTeX fallback span `.math-fallback` (lines 263–275), or a bare text
span (line 277). -/
inductive OccView where
  | loadingPlaceholder
  | image (srcIsDataUrl : Bool) (naturalWidth : ℕ)
  | fallbackMarkup
  | rawText
  deriving DecidableEq

/-- The render dispatch of lines 225–279: loading wins, then a missing
data URL selects the KaTeX fallback (or raw text when even
`katex.renderToString` throws), otherwise the image is shown.  A shown
image's `src` is always the `toDataURL` result, hence a data URL. -/
def renderOcc (isLoading hasImageData katexOk : Bool) (naturalWidth : ℕ) : OccView :=
  if isLoading then OccView.loadingPlaceholder
  else if hasImageData then OccView.image true naturalWidth
  else if katexOk then OccView.fallbackMarkup
  else OccView.rawText

/-- Whether a rendered view carries any visible indicator that image
generation failed.  None of the four branches does: the loading span
shows a loading hint, the fallback span (lines 269–275) holds only the
KaTeX markup, the raw-text span (line 277) only the formula source, and
the `<img>` itself is the success case.  (The only failure notice in the
file, line 359, lives in the `onError` handler of an already-produced
image and is not part of any of these render branches.) -/
def viewIndicatesImageFailure : OccView → Bool
  | OccView.loadingPlaceholder => false
  | OccView.image _ _ => false
  | OccView.fallbackMarkup => false
  | OccView.rawText => false

/-! ## Export gate (App.handleCopy, part_000 lines 118–136) -/

/-- `querySelectorAll('.math-image')` only ever returns the final images:
the view is a math-image element exactly for the `image` branch. -/
def isMathImage : OccView → Bool
  | OccView.image _ _ => true
  | _ => false

/-- The filter of lines 125–130: an image counts as still loading when
`!img.src.startsWith('data:image') || img.naturalWidth === 0`. -/
def isUnreadyImage : OccView → Bool
  | OccView.image srcIsDataUrl naturalWidth => !srcIsDataUrl || naturalWidth == 0
  | _ => false

/-- What the copy handler did before / instead of the clipboard commit. -/
structure CopyResult where
  refusalAlert : Bool
  htmlBuilt : Bool
  clipboardAttempted : Bool
  deriving DecidableEq

/-- The readiness gate of `handleCopy` (lines 122–136): if any
`.math-image` elements exist and some of them are unready, alert and
return; otherwise fall through to building the HTML fragment and
attempting the clipboard commit (lines 138 onward). -/
def copyGate (occs : List OccView) : CopyResult :=
  let mathImages := occs.filter isMathImage
  if 0 < mathImages.length then
    if 0 < (mathImages.filter isUnreadyImage).length then
      { refusalAlert := true, htmlBuilt := false, clipboardAttempted := false }
    else
      { refusalAlert := false, htmlBuilt := true, clipboardAttempted := true }
  else
    { refusalAlert := false, htmlBuilt := true, clipboardAttempted := true }

/-! ## Clipboard Writer (App.handleCopy, part_000 lines 345–390) -/

/-- Runtime environment of the commit: whether
`navigator.clipboard && window.ClipboardItem` exists, whether
`navigator.clipboard.write` resolves, whether `window.getSelection()`
returns a selection object, and whether `document.execCommand('copy')`
returns success. -/
structure ClipEnv where
  apiAvailable : Bool
  writeOk : Bool
  selectionAvailable : Bool
  execOk : Bool
  deriving DecidableEq

/-- Observable outcome of the commit attempt. -/
structure ClipOutcome where
  structuredAttempted : Bool
  legacyAttempted : Bool
  successAlert : Bool
  manualGuidanceAlert : Bool
  contentsSelectedForUser : Bool
  deriving DecidableEq

/-- The commit of lines 345–390.  With the API available the code awaits
`navigator.clipboard.write`; a rejection jumps straight to the `catch`
(lines 374–389: manual-copy alert, then select the preview contents when
a selection object exists) — the legacy branch is **not** tried.  Without
the API, the legacy branch runs only when `getSelection()` yields a
selection object; a failed `execCommand` throws into the same catch; and
with no selection object the `else` body is skipped entirely, so nothing
is attempted and no message is shown. -/
def clipboardCommit (e : ClipEnv) : ClipOutcome :=
  if e.apiAvailable then
    if e.writeOk then
      { structuredAttempted := true, legacyAttempted := false, successAlert := true
        manualGuidanceAlert := false, contentsSelectedForUser := false }
    else
      { structuredAttempted := true, legacyAttempted := false, successAlert := false
        manualGuidanceAlert := true, contentsSelectedForUser := e.selectionAvailable }
  else
    if e.selectionAvailable then
      if e.execOk then
        { structuredAttempted := false, legacyAttempted := true, successAlert := true
          manualGuidanceAlert := false, contentsSelectedForUser := false }
      else
        { structuredAttempted := false, legacyAttempted := true, successAlert := false
          manualGuidanceAlert := true, contentsSelectedForUser := true }
    else
      { structuredAttempted := false, legacyAttempted := false, successAlert := false
        manualGuidanceAlert := false, contentsSelectedForUser := false }

/-! ## Export post-processing (App.handleCopy, part_000 lines 176–343)

Each injection is a JS global replace
`htmlContent.replace(/<tag([^>]*)>/g, '<tag$1 STYLE>')`: scan left to
right; at a literal `<tag` the regex engine captures the maximal run of
non-`>` characters, requires a closing `>`, and re-emits the opening tag
with the fixed style attribute inserted before the `>`; on a failed match
the scan advances one character; matches are non-overlapping and the scan
resumes after each match. -/

/-- Does `pat` occur at the head of the second list? -/
def startsWithSeq : List Char → List Char → Bool
  | [], _ => true
  | _ :: _, [] => false
  | p :: ps, c :: cs => p == c && startsWithSeq ps cs

/-- Does `pat` occur anywhere in the list? -/
def occursIn (pat : List Char) : List Char → Bool
  | [] => startsWithSeq pat []
  | c :: cs => startsWithSeq pat (c :: cs) || occursIn pat cs

/-- Split at the first `>`: the regex piece `([^>]*)>`.  `none` when no
`>` remains (the regex match fails). -/
def splitAtGt : List Char → Option (List Char × List Char)
  | [] => none
  | c :: cs =>
    if c = '>' then some ([], cs)
    else
      match splitAtGt cs with
      | none => none
      | some (a, b) => some (c :: a, b)

/-- Fuelled scanner for one global replace of `/<tag([^>]*)>/g` by
`<tag$1 STYLE>`; `style` is the full text inserted between `$1` and the
closing `>`.  The fuel only serves termination; `injectTag` supplies
enough for the whole input. -/
def injectTagAux (tag style : List Char) : ℕ → List Char → List Char
  | 0, s => s
  | _ + 1, [] => []
  | fuel + 1, c :: cs =>
    if startsWithSeq ('<' :: tag) (c :: cs) then
      match splitAtGt ((c :: cs).drop (tag.length + 1)) with
      | some (attrs, rest) =>
          '<' :: (tag ++ attrs ++ style ++ '>' :: injectTagAux tag style fuel rest)
      | none => c :: injectTagAux tag style fuel cs
    else c :: injectTagAux tag style fuel cs

/-- One global replace `s.replace(/<tag([^>]*)>/g, '<tag$1' + style + '>')`. -/
def injectTag (tag style s : List Char) : List Char :=
  injectTagAux tag style s.length s

/-- Step C of the code-block pass (lines 176–181):
`codeElement.innerHTML.replace(/\n/g, '<br>')`. -/
def fixNewlines : List Char → List Char
  | [] => []
  | c :: cs =>
    if c = '\n' then '<' :: 'b' :: 'r' :: '>' :: fixNewlines cs
    else c :: fixNewlines cs

/-- The attribute text injected into every `<code …>` opening tag
(lines 254–272). -/
def codeStyle : List Char :=
  (" style=\"background-color: #f1f3f4; color: #c7254e; padding: 2px 6px; margin: 0 2px; font-family: Consolas, \x27Courier New\x27, Monaco, monospace; font-size: 90%; font-weight: normal; border: 1px solid #d1d5db; border-radius: 3px; word-wrap: break-word; white-space: nowrap; vertical-align: baseline; mso-element: span;\"").toList

/-- The attribute text injected into every `<table …>` opening tag
(lines 274–287). -/
def tableStyle : List Char :=
  (" style=\"border-collapse: collapse; width: 100%; margin: 16px 0; font-size: 14px; mso-table-lspace: 0pt; mso-table-rspace: 0pt; mso-table-anchor-vertical: paragraph; mso-table-anchor-horizontal: margin;\"").toList

/-- The attribute text injected into every `<th …>` opening tag
(lines 289–301). -/
def thStyle : List Char :=
  (" style=\"border: 1px solid #d0d7de; padding: 8px 12px; background-color: #f6f8fa; font-weight: 600; text-align: left; vertical-align: top; mso-element: th;\"").toList

/-- The attribute text injected into every `<td …>` opening tag
(lines 303–312). -/
def tdStyle : List Char :=
  (" style=\"border: 1px solid #d0d7de; padding: 8px 12px; vertical-align: top; mso-element: td;\"").toList

/-- The attribute text injected into every `<blockquote …>` opening tag
(lines 314–326). -/
def blockquoteStyle : List Char :=
  (" style=\"margin: 16px 0; padding: 0 16px; border-left: 4px solid #d1d5db; background-color: #f9fafb; font-style: italic; color: #6b7280; page-break-inside: avoid;\"").toList

/-- The attribute text injected into every `<h𝑖 …>` opening tag
(lines 328–343): `fontSize = Math.max(24 - i * 2, 14)` and a wider top
margin for `h1`. -/
def headingStyle (i : ℕ) : List Char :=
  (" style=\"font-size: " ++ toString (max (24 - i * 2) 14) ++
    "px; font-weight: bold; margin: " ++ (if i = 1 then "24px" else "20px") ++
    " 0 16px 0; color: #1f2937; line-height: 1.25; page-break-after: avoid; mso-element: h" ++
    toString i ++ ";\"").toList

/-- All post-processing injections in the order the code applies them
(lines 254–343): inline code, table, th, td, blockquote, then h1–h6. -/
def applyInjections (s : List Char) : List Char :=
  let s1 := injectTag "code".toList codeStyle s
  let s2 := injectTag "table".toList tableStyle s1
  let s3 := injectTag "th".toList thStyle s2
  let s4 := injectTag "td".toList tdStyle s3
  let s5 := injectTag "blockquote".toList blockquoteStyle s4
  (List.range 6).foldl
    (fun acc i => injectTag ("h" ++ toString (i + 1)).toList (headingStyle (i + 1)) acc) s5

/-! ## Scanner lemmas -/

/-- A pattern matches at the head of itself followed by anything. -/
theorem startsWithSeq_self_append (p r : List Char) : startsWithSeq p (p ++ r) = true := by
  induction p with
  | nil => rfl
  | cons c cs ih => simp [startsWithSeq, ih]

/-- `injectTagAux` fixes the empty input whatever the fuel. -/
theorem injectTagAux_nil (tag style : List Char) (fuel : ℕ) :
    injectTagAux tag style fuel [] = [] := by
  cases fuel <;> rfl

/-- `splitAtGt` splits off exactly the run before the first `>`. -/
theorem splitAtGt_append (attrs rest : List Char) (h : '>' ∉ attrs) :
    splitAtGt (attrs ++ '>' :: rest) = some (attrs, rest) := by
  induction attrs with
  | nil => simp [splitAtGt]
  | cons a as ih =>
      have ha : a ≠ '>' := fun hc => h (hc ▸ List.mem_cons_self a as)
      have has : '>' ∉ as := fun hc => h (List.mem_cons_of_mem a hc)
      simp [splitAtGt, ha, ih has]

/-- A successful `splitAtGt` consumes one `>` beyond its two pieces. -/
theorem splitAtGt_length :
    ∀ (l a b : List Char), splitAtGt l = some (a, b) →
      l.length = a.length + b.length + 1 := by
  intro l
  induction l with
  | nil => intro a b h; simp [splitAtGt] at h
  | cons c cs ih =>
      intro a b h
      by_cases hc : c = '>'
      · simp [splitAtGt, hc] at h
        obtain ⟨ha, hb⟩ := h
        subst ha; subst hb
        simp
      · simp only [splitAtGt, if_neg hc] at h
        cases hsp : splitAtGt cs with
        | none => rw [hsp] at h; simp at h
        | some p =>
            obtain ⟨a1, b1⟩ := p
            rw [hsp] at h
            simp at h
            obtain ⟨ha, hb⟩ := h
            have := ih a1 b1 hsp
            subst ha; subst hb
            simp [this]
            omega

/-- The scanner's output does not depend on the fuel, as long as the fuel
covers the input length. -/
theorem injectTagAux_congr (tag style : List Char) :
    ∀ (f1 f2 : ℕ) (s : List Char), s.length ≤ f1 → s.length ≤ f2 →
      injectTagAux tag style f1 s = injectTagAux tag style f2 s := by
  intro f1
  induction f1 with
  | zero =>
      intro f2 s h1 h2
      have : s = [] := List.length_eq_zero.mp (Nat.le_zero.mp h1)
      subst this
      rw [injectTagAux_nil, injectTagAux_nil]
  | succ f1 ih =>
      intro f2 s h1 h2
      cases s with
      | nil => rw [injectTagAux_nil, injectTagAux_nil]
      | cons c cs =>
          cases f2 with
          | zero => simp at h2
          | succ f2 =>
              have hc1 : cs.length ≤ f1 := by simp at h1; omega
              have hc2 : cs.length ≤ f2 := by simp at h2; omega
              simp only [injectTagAux]
              by_cases hpre : startsWithSeq ('<' :: tag) (c :: cs) = true
              · simp only [hpre, if_true]
                cases hsp : splitAtGt ((c :: cs).drop (tag.length + 1)) with
                | none => simp [ih f2 cs hc1 hc2]
                | some p =>
                    obtain ⟨attrs, rest⟩ := p
                    have hdl := splitAtGt_length _ _ _ hsp
                    have hdrop : ((c :: cs).drop (tag.length + 1)).length ≤ cs.length := by
                      simp [List.length_drop]
                    have hr1 : rest.length ≤ f1 := by omega
                    have hr2 : rest.length ≤ f2 := by omega
                    simp [ih f2 rest hr1 hr2]
              · have hpre' : startsWithSeq ('<' :: tag) (c :: cs) = false :=
                  Bool.eq_false_iff.mpr hpre
                simp [hpre', ih f2 cs hc1 hc2]

/-- Extra fuel collapses to the canonical amount. -/
theorem injectTagAux_of_le (tag style : List Char) (fuel : ℕ) (s : List Char)
    (h : s.length ≤ fuel) :
    injectTagAux tag style fuel s = injectTag tag style s :=
  injectTagAux_congr tag style fuel s.length s h le_rfl

/-- A non-matching head character passes through the scanner unchanged. -/
theorem injectTag_cons_nomatch (tag style : List Char) (c : Char) (cs : List Char)
    (h : startsWithSeq ('<' :: tag) (c :: cs) = false) :
    injectTag tag style (c :: cs) = c :: injectTag tag style cs := by
  show injectTagAux tag style (cs.length + 1) (c :: cs) = _
  simp only [injectTagAux, h, Bool.false_eq_true, if_false]
  rfl

/-- Fuelled form of the match step: a well-formed opening tag at the head
is rewritten with the style attribute appended to its attributes, and the
scan continues after the closing bracket. -/
theorem injectTagAux_match (tag style attrs rest : List Char) (fuel : ℕ)
    (h : '>' ∉ attrs) (hf : rest.length ≤ fuel) :
    injectTagAux tag style (fuel + 1) ('<' :: tag ++ attrs ++ '>' :: rest) =
      '<' :: tag ++ attrs ++ style ++ '>' :: injectTag tag style rest := by
  have hshape : '<' :: tag ++ attrs ++ '>' :: rest =
      '<' :: (tag ++ (attrs ++ '>' :: rest)) := by simp
  rw [hshape]
  have hpre : startsWithSeq ('<' :: tag) ('<' :: (tag ++ (attrs ++ '>' :: rest))) = true := by
    have := startsWithSeq_self_append ('<' :: tag) (attrs ++ '>' :: rest)
    simpa using this
  have hdrop : ('<' :: (tag ++ (attrs ++ '>' :: rest))).drop (tag.length + 1) =
      attrs ++ '>' :: rest := by
    have h2 : '<' :: (tag ++ (attrs ++ '>' :: rest)) =
        ('<' :: tag) ++ (attrs ++ '>' :: rest) := by simp
    have hl : ('<' :: tag).length = tag.length + 1 := by simp
    rw [h2, ← hl, List.drop_left]
  simp only [injectTagAux, hpre, if_true, hdrop, splitAtGt_append attrs rest h]
  rw [injectTagAux_of_le tag style fuel rest hf]
  simp

/-- A well-formed opening tag at the head is rewritten with the style
attribute appended to its attributes, and the scan continues after it. -/
theorem injectTag_match (tag style attrs rest : List Char) (h : '>' ∉ attrs) :
    injectTag tag style ('<' :: tag ++ attrs ++ '>' :: rest) =
      '<' :: tag ++ attrs ++ style ++ '>' :: injectTag tag style rest := by
  show injectTagAux tag style ('<' :: tag ++ attrs ++ '>' :: rest).length
      ('<' :: tag ++ attrs ++ '>' :: rest) = _
  have hlen : ('<' :: tag ++ attrs ++ '>' :: rest).length =
      (tag.length + attrs.length + rest.length + 1) + 1 := by simp; omega
  rw [hlen]
  exact injectTagAux_match tag style attrs rest _ h (by omega)

/-- Text in which the pattern `<tag` never occurs is a fixed point of the
global replace. -/
theorem injectTag_no_occur (tag style : List Char) :
    ∀ s, occursIn ('<' :: tag) s = false → injectTag tag style s = s := by
  intro s
  induction s with
  | nil => intro _; rfl
  | cons c cs ih =>
      intro h
      simp only [occursIn, Bool.or_eq_false_iff] at h
      obtain ⟨h1, h2⟩ := h
      rw [injectTag_cons_nomatch tag style c cs h1, ih h2]

/-! ## Claim theorems -/

/-- C1 (counterexample): the claim that only the most-recently-issued
request's result is ever committed fails.  Issue request 0, then request 1
for the same occurrence, let 1 resolve first and 0 resolve second: the
effect (which has no staleness guard) commits request 0's data URL to the
occurrence's visible state. -/
theorem lifecycle_superseded_result_committed :
    (fxRun [FxEvent.issue 0, FxEvent.issue 1, FxEvent.resolve 1,
      FxEvent.resolve 0]).committed = some 0 ∧ (0 : ℕ) ≠ 1 := by
  decide

/-- C1 (amended): the occurrence's visible state reflects whichever
in-flight conversion resolves last — last-resolved wins, not last-issued;
an older request's in-flight result is still written to state when it
resolves after the newer one's. -/
theorem lifecycle_last_resolved_wins (es : List FxEvent) (r : ℕ)
    (h : r ∈ (fxRun es).inFlight) :
    (fxRun (es ++ [FxEvent.resolve r])).committed = some r ∧
    (fxRun (es ++ [FxEvent.resolve r])).loading = false := by
  have hrun : fxRun (es ++ [FxEvent.resolve r]) =
      fxStep (fxRun es) (FxEvent.resolve r) := by
    simp [fxRun, List.foldl_append]
  rw [hrun]
  simp [fxStep, h]

/-- C1 (witness): a freshly issued request that then resolves is
committed. -/
theorem lifecycle_last_resolved_wins_witness :
    (fxRun ([FxEvent.issue 7] ++ [FxEvent.resolve 7])).committed = some 7 ∧
    (fxRun ([FxEvent.issue 7] ++ [FxEvent.resolve 7])).loading = false :=
  lifecycle_last_resolved_wins [FxEvent.issue 7] 7 (by decide)

/-- C2 (counterexample): an occurrence still in the Loading state renders
the `.math-loading` placeholder span, not a `.math-image` element, so the
export gate of `handleCopy` does not refuse: it builds the HTML fragment
and attempts the clipboard write. -/
theorem export_gate_misses_loading_occurrence :
    renderOcc true false true 0 = OccView.loadingPlaceholder ∧
    copyGate [renderOcc true false true 0] =
      { refusalAlert := false, htmlBuilt := true, clipboardAttempted := true } := by
  decide

/-- C2 (amended): the gate refuses — alerting and building no HTML and
attempting no clipboard write — exactly when some rendered `.math-image`
element is unready (non-data `src` or zero `naturalWidth`); occurrences in
the Loading state contribute no `.math-image` element and never trigger
the refusal. -/
theorem export_gate_refusal_characterization (occs : List OccView) :
    (copyGate occs).refusalAlert = occs.any isUnreadyImage ∧
    (copyGate occs).htmlBuilt = !occs.any isUnreadyImage ∧
    (copyGate occs).clipboardAttempted = !occs.any isUnreadyImage := by
  by_cases hany : occs.any isUnreadyImage = true
  · obtain ⟨v, hv, hvp⟩ := List.any_eq_true.mp hany
    have hmath : isMathImage v = true := by
      cases v <;> simp_all [isUnreadyImage, isMathImage]
    have hv1 : v ∈ occs.filter isMathImage := List.mem_filter.mpr ⟨hv, hmath⟩
    have hv2 : v ∈ (occs.filter isMathImage).filter isUnreadyImage :=
      List.mem_filter.mpr ⟨hv1, hvp⟩
    have l1 : 0 < (occs.filter isMathImage).length :=
      List.length_pos.mpr (List.ne_nil_of_mem hv1)
    have l2 : 0 < ((occs.filter isMathImage).filter isUnreadyImage).length :=
      List.length_pos.mpr (List.ne_nil_of_mem hv2)
    simp only [copyGate]
    rw [if_pos l1, if_pos l2, hany]
    simp
  · have hany2 : occs.any isUnreadyImage = false := Bool.eq_false_iff.mpr hany
    have hall := List.any_eq_false.mp hany2
    have hnil : (occs.filter isMathImage).filter isUnreadyImage = [] := by
      apply List.filter_eq_nil_iff.mpr
      intro a ha
      exact (hall a (List.mem_filter.mp ha).1)
    simp only [copyGate, hnil, List.length_nil, lt_irrefl, if_false, hany2]
    split <;> simp

/-- C3 (counterexample): the code's scale uses `devicePixelRatio || 1`,
which keeps a ratio of 1/2 as-is, not the claim's floor-clamp `max d 1`;
and because capture dimensions go through `Math.ceil`, doubling the target
DPI from 96 to 192 does not double the capture dimension for an element of
CSS size 9/40. -/
theorem raster_scale_claim_counterexample :
    rasterScale 96 (1/2) ≠ rasterScaleClaimClamped 96 (1/2) ∧
    captureDim (9/40) 192 1 ≠ 2 * captureDim (9/40) 96 1 := by
  constructor
  · have hm : max (1/2 : ℚ) 1 = 1 := max_eq_right (by norm_num)
    simp only [rasterScale, rasterScaleClaimClamped, effectiveDPR]
    rw [if_neg (by norm_num), hm]
    norm_num
  · have c1 : (9 : ℚ)/40 * rasterScale 192 1 = 3/5 := by
      simp only [rasterScale, effectiveDPR]
      norm_num
    have c2 : (9 : ℚ)/40 * rasterScale 96 1 = 3/10 := by
      simp only [rasterScale, effectiveDPR]
      norm_num
    simp only [captureDim, c1, c2]
    have h1 : ⌈(3 : ℚ)/5⌉ = 1 := by
      rw [Int.ceil_eq_iff]
      norm_num
    have h2 : ⌈(3 : ℚ)/10⌉ = 1 := by
      rw [Int.ceil_eq_iff]
      norm_num
    rw [h1, h2]
    norm_num

/-- C3 (amended): with the device pixel ratio replaced by 1 only when it
is zero (JS `|| 1`), the scale `targetDPI / (72 * d)` is strictly positive
for positive targetDPI and nonnegative d, the pre-ceiling capture extent
at targetDPI 192 is exactly double that at 96, and each capture dimension
is `ceil(actualSize * scale)`; the ceiled dimensions themselves need not
double exactly. -/
theorem raster_scale_amended (t d a : ℚ) (ht : 0 < t) (hd : 0 ≤ d) :
    0 < rasterScale t d ∧
    rasterScale 192 d = 2 * rasterScale 96 d ∧
    captureDim a t d = ⌈a * (t / (72 * (if d = 0 then 1 else d)))⌉ := by
  refine ⟨?_, ?_, rfl⟩
  · unfold rasterScale effectiveDPR
    split_ifs with h
    · positivity
    · have hpos : 0 < d := lt_of_le_of_ne hd (Ne.symm h)
      positivity
  · unfold rasterScale
    ring

/-- C3 (witness): the amended statement at targetDPI 96, pixel ratio 2,
CSS size 5. -/
theorem raster_scale_amended_witness :
    0 < rasterScale 96 2 ∧
    rasterScale 192 2 = 2 * rasterScale 96 2 ∧
    captureDim 5 96 2 = ⌈(5 : ℚ) * (96 / (72 * (if (2 : ℚ) = 0 then 1 else 2)))⌉ :=
  raster_scale_amended 96 2 5 (by norm_num) (by norm_num)

/-- C4 (counterexample): when both `toDataURL` encodings throw, no data
URL is set and the occurrence renders the plain KaTeX fallback span, which
carries no visible indicator that image generation failed. -/
theorem encode_failure_indicator_counterexample :
    encodeCanvas false false 1 = none ∧
    renderOcc false false true 0 = OccView.fallbackMarkup ∧
    viewIndicatesImageFailure (renderOcc false false true 0) = false := by
  decide

/-- C4 (amended): encoding attempts PNG at the requested quality first,
falls back to JPEG at `max(quality, 0.8)` when PNG throws, and when both
throw produces no data URL, so the occurrence falls back to direct KaTeX
markup (or raw text when typesetting also throws) with no visible
indicator that image generation failed. -/
theorem encode_fallback_amended (q : ℚ) (pngOk jpegOk katexOk : Bool) :
    (pngOk = true → encodeCanvas pngOk jpegOk q = some (ImgFormat.png, q)) ∧
    (pngOk = false → jpegOk = true →
      encodeCanvas pngOk jpegOk q = some (ImgFormat.jpeg, max q (4/5))) ∧
    (pngOk = false → jpegOk = false →
      encodeCanvas pngOk jpegOk q = none ∧
      renderOcc false false katexOk 0 =
        (if katexOk then OccView.fallbackMarkup else OccView.rawText) ∧
      viewIndicatesImageFailure (renderOcc false false katexOk 0) = false) := by
  refine ⟨?_, ?_, ?_⟩
  · intro h; subst h; simp [encodeCanvas]
  · intro h1 h2; subst h1; subst h2; simp [encodeCanvas]
  · intro h1 h2; subst h1; subst h2
    cases katexOk <;> simp [encodeCanvas, renderOcc, viewIndicatesImageFailure]

/-- C4 (witness): PNG throwing and JPEG succeeding yields the JPEG
encoding at the floored quality. -/
theorem encode_fallback_amended_witness :
    encodeCanvas false true 1 = some (ImgFormat.jpeg, max 1 (4/5)) :=
  (encode_fallback_amended 1 false true true).2.1 rfl rfl

/-- C5: on every exit path of a `convertMathToImage` attempt — empty
source, attach failure, typesetting / measurement / capture / double
encoding failure, or success — the staging container is detached exactly
as many times as it was attached, never more than once, and never remains
in the document. -/
theorem staging_detach_exactly_once (e : AttemptEnv) :
    (runAttempt e).detachCount = (runAttempt e).attachCount ∧
    (runAttempt e).detachCount ≤ 1 ∧
    (runAttempt e).inDoc = false := by
  obtain ⟨m, ap, k, me, cp, pg, jp⟩ := e
  cases m <;> cases ap <;> cases k <;> cases me <;> cases cp <;> cases pg <;> cases jp <;>
    decide

/-- C6 (counterexample): the adjustment triggers on the raw offsets
`|offsetX| > 1 || |offsetY| > 1`, not on the deviation from centering —
with offsets of 1/2 the padding is left untouched although the content is
39.5px off centre.  And when the rewrite does fire on the real block-mode
staging padding (`'0.8em 1.0em'` at the default 20px font), `parseFloat`
strips the em unit and the adjusted numbers are written back as px: in a
run with offsets (20, 16), container 150×72 and content 100×40, the
vertical sides are rewritten without any clamp at zero yet the physical
vertical padding shrinks from 32px to 1.6px, and the content's horizontal
offset ends at 6px instead of the centered 25px — the claimed
size-preserving recentering fails. -/
theorem recenter_padding_counterexample :
    recenterPadding ⟨1/2, 1/2, 100, 10, 20, 8⟩ inlinePadding = inlinePadding ∧
    1 < adjustX ⟨1/2, 1/2, 100, 10, 20, 8⟩ ∧
    1 < adjustX ⟨20, 16, 150, 72, 100, 40⟩ ∧
    (0 ≤ blockPadding.top.val + adjustY ⟨20, 16, 150, 72, 100, 40⟩ ∧
      0 ≤ blockPadding.bottom.val - adjustY ⟨20, 16, 150, 72, 100, 40⟩) ∧
    toPx 20 (recenterPadding ⟨20, 16, 150, 72, 100, 40⟩ blockPadding).top +
        toPx 20 (recenterPadding ⟨20, 16, 150, 72, 100, 40⟩ blockPadding).bottom ≠
      toPx 20 blockPadding.top + toPx 20 blockPadding.bottom ∧
    (20 : ℚ) + (toPx 20 (recenterPadding ⟨20, 16, 150, 72, 100, 40⟩ blockPadding).left -
        toPx 20 blockPadding.left) ≠
      ((150 : ℚ) - 100) / 2 := by
  have htrig2 : (1 : ℚ) < |(20 : ℚ)| ∨ (1 : ℚ) < |(16 : ℚ)| := by
    left
    rw [abs_of_pos] <;> norm_num
  have hres : recenterPadding ⟨20, 16, 150, 72, 100, 40⟩ blockPadding =
      { top := ⟨4/5, CssUnit.px⟩, right := ⟨0, CssUnit.px⟩
        bottom := ⟨4/5, CssUnit.px⟩, left := ⟨6, CssUnit.px⟩ } := by
    simp only [recenterPadding, adjustX, adjustY, blockPadding]
    rw [if_pos htrig2]
    simp only [PaddingState.mk.injEq, CssLen.mk.injEq]
    norm_num [max_def]
  refine ⟨?_, ?_, ?_, ?_, ?_, ?_⟩
  · have hno : ¬((1 : ℚ) < |(1/2 : ℚ)| ∨ (1 : ℚ) < |(1/2 : ℚ)|) := by
      rw [abs_of_pos (by norm_num : (0 : ℚ) < 1/2)]
      norm_num
    exact if_neg hno
  · simp only [adjustX]
    norm_num
  · simp only [adjustX]
    norm_num
  · constructor <;>
    · simp only [adjustY, blockPadding]
      norm_num
  · rw [hres]
    simp only [toPx, unitScale, blockPadding]
    norm_num
  · rw [hres]
    simp only [toPx, unitScale, blockPadding]
    norm_num

/-- C6 (amended): when the raw offset exceeds 1px on either axis and no
clamp at zero activates, each padding side is rewritten to a px length
whose number is the unit-stripped parsed number plus/minus the full
centering correction; the parsed numeric totals per axis are therefore
preserved, but the physical offset after the rewrite (old offset plus the
physical padding delta) misses true centering by exactly
`val * (1 - unitScale)` per axis — zero only when the previous padding was
already px-denominated, never for the em paddings the staging container
starts from (unless the font size is 1px). -/
theorem recenter_padding_amended (m : CenterMeasure) (p : PaddingState) (f : ℚ)
    (htrig : 1 < |m.offsetX| ∨ 1 < |m.offsetY|)
    (h1 : 0 ≤ p.top.val + adjustY m) (h2 : 0 ≤ p.bottom.val - adjustY m)
    (h3 : 0 ≤ p.left.val + adjustX m) (h4 : 0 ≤ p.right.val - adjustX m) :
    recenterPadding m p =
      { top := ⟨p.top.val + adjustY m, CssUnit.px⟩
        right := ⟨p.right.val - adjustX m, CssUnit.px⟩
        bottom := ⟨p.bottom.val - adjustY m, CssUnit.px⟩
        left := ⟨p.left.val + adjustX m, CssUnit.px⟩ } ∧
    (recenterPadding m p).left.val + (recenterPadding m p).right.val =
      p.left.val + p.right.val ∧
    (recenterPadding m p).top.val + (recenterPadding m p).bottom.val =
      p.top.val + p.bottom.val ∧
    m.offsetX + (toPx f (recenterPadding m p).left - toPx f p.left) =
      (m.containerW - m.katexW) / 2 + p.left.val * (1 - unitScale f p.left.unit) ∧
    m.offsetY + (toPx f (recenterPadding m p).top - toPx f p.top) =
      (m.containerH - m.katexH) / 2 + p.top.val * (1 - unitScale f p.top.unit) := by
  have hres : recenterPadding m p =
      { top := ⟨p.top.val + adjustY m, CssUnit.px⟩
        right := ⟨p.right.val - adjustX m, CssUnit.px⟩
        bottom := ⟨p.bottom.val - adjustY m, CssUnit.px⟩
        left := ⟨p.left.val + adjustX m, CssUnit.px⟩ } := by
    unfold recenterPadding
    rw [if_pos htrig]
    rw [max_eq_right h1, max_eq_right h2, max_eq_right h3, max_eq_right h4]
  refine ⟨hres, ?_, ?_, ?_, ?_⟩
  · rw [hres]
    dsimp only
    ring
  · rw [hres]
    dsimp only
    ring
  · rw [hres]
    dsimp only [toPx, unitScale]
    unfold adjustX
    ring
  · rw [hres]
    dsimp only [toPx, unitScale]
    unfold adjustY
    ring

/-- C6 (witness): the amended statement for a real block-mode run — the
em padding `'0.8em 1.0em'` at the default 20px font, offsets (2, 0),
container 105×40.4, content 100×40 (corrections 0.5px and 0.2px, no
clamping). -/
theorem recenter_padding_amended_witness :
    recenterPadding ⟨2, 0, 105, 202/5, 100, 40⟩ blockPadding =
      { top := ⟨blockPadding.top.val + adjustY ⟨2, 0, 105, 202/5, 100, 40⟩, CssUnit.px⟩
        right := ⟨blockPadding.right.val - adjustX ⟨2, 0, 105, 202/5, 100, 40⟩, CssUnit.px⟩
        bottom := ⟨blockPadding.bottom.val - adjustY ⟨2, 0, 105, 202/5, 100, 40⟩, CssUnit.px⟩
        left := ⟨blockPadding.left.val + adjustX ⟨2, 0, 105, 202/5, 100, 40⟩, CssUnit.px⟩ } ∧
    (recenterPadding ⟨2, 0, 105, 202/5, 100, 40⟩ blockPadding).left.val +
        (recenterPadding ⟨2, 0, 105, 202/5, 100, 40⟩ blockPadding).right.val =
      blockPadding.left.val + blockPadding.right.val ∧
    (recenterPadding ⟨2, 0, 105, 202/5, 100, 40⟩ blockPadding).top.val +
        (recenterPadding ⟨2, 0, 105, 202/5, 100, 40⟩ blockPadding).bottom.val =
      blockPadding.top.val + blockPadding.bottom.val ∧
    (2 : ℚ) + (toPx 20 (recenterPadding ⟨2, 0, 105, 202/5, 100, 40⟩ blockPadding).left -
        toPx 20 blockPadding.left) =
      ((105 : ℚ) - 100) / 2 + blockPadding.left.val * (1 - unitScale 20 blockPadding.left.unit) ∧
    (0 : ℚ) + (toPx 20 (recenterPadding ⟨2, 0, 105, 202/5, 100, 40⟩ blockPadding).top -
        toPx 20 blockPadding.top) =
      ((202/5 : ℚ) - 40) / 2 + blockPadding.top.val * (1 - unitScale 20 blockPadding.top.unit) :=
  recenter_padding_amended ⟨2, 0, 105, 202/5, 100, 40⟩ blockPadding 20
    (by left; rw [abs_of_pos] <;> norm_num)
    (by simp only [blockPadding, adjustY]; norm_num)
    (by simp only [blockPadding, adjustY]; norm_num)
    (by simp only [blockPadding, adjustX]; norm_num)
    (by simp only [blockPadding, adjustX]; norm_num)

/-- C7: the staging base font size is `max (1.1 * p) 18` in block mode and
`max (1.0 * p) 14` in inline mode when a numeric parent font size `p` is
given, and exactly 20 (block) or 16 (inline) pixels otherwise. -/
theorem base_font_size_cases (p : ℚ) :
    baseFontSize (some p) true = max ((11 / 10) * p) 18 ∧
    baseFontSize (some p) false = max (1 * p) 14 ∧
    baseFontSize none true = 20 ∧
    baseFontSize none false = 16 := by
  refine ⟨?_, ?_, rfl, rfl⟩ <;> simp [baseFontSize, mul_comm]

set_option maxRecDepth 400000 in
/-- C8 (counterexample): the inline-code injection is not idempotent —
applying it twice to `<code>` stacks a second style attribute — and
distinct element types need not commute: on `<table<code>` the code and
table injections give different results in the two orders. -/
theorem inject_idempotence_counterexample :
    injectTag "code".toList codeStyle
        (injectTag "code".toList codeStyle "<code>".toList) ≠
      injectTag "code".toList codeStyle "<code>".toList ∧
    injectTag "table".toList tableStyle
        (injectTag "code".toList codeStyle "<table<code>".toList) ≠
      injectTag "code".toList codeStyle
        (injectTag "table".toList tableStyle "<table<code>".toList) := by
  decide

/-- C8 (amended): one application of an element-type injection rewrites a
well-formed opening tag by appending the fixed style attribute before the
closing bracket; a second application appends the attribute again, so the
twice-processed markup is strictly longer than — hence different from —
the once-processed markup. -/
theorem inject_twice_duplicates_style (tag style attrs : List Char)
    (h1 : '>' ∉ attrs) (h2 : '>' ∉ style) (h3 : style ≠ []) :
    injectTag tag style ('<' :: tag ++ attrs ++ ['>']) =
      '<' :: tag ++ attrs ++ style ++ ['>'] ∧
    injectTag tag style ('<' :: tag ++ attrs ++ style ++ ['>']) =
      '<' :: tag ++ attrs ++ style ++ style ++ ['>'] ∧
    '<' :: tag ++ attrs ++ style ++ style ++ ['>'] ≠
      '<' :: tag ++ attrs ++ style ++ ['>'] := by
  refine ⟨?_, ?_, ?_⟩
  · have := injectTag_match tag style attrs [] h1
    simpa using this
  · have hmem : '>' ∉ attrs ++ style := by
      intro hc
      rcases List.mem_append.mp hc with hc | hc
      · exact h1 hc
      · exact h2 hc
    have := injectTag_match tag style (attrs ++ style) [] hmem
    simpa [List.append_assoc] using this
  · intro heq
    have hlen := congrArg List.length heq
    simp only [List.length_append, List.length_cons] at hlen
    have hpos : 0 < style.length := List.length_pos.mpr h3
    omega

set_option maxRecDepth 400000 in
/-- C8 (witness): the amended statement at the inline-code tag and its
style attribute text, with empty attributes. -/
theorem inject_twice_duplicates_style_witness :
    injectTag "code".toList codeStyle ('<' :: "code".toList ++ [] ++ ['>']) =
      '<' :: "code".toList ++ [] ++ codeStyle ++ ['>'] ∧
    injectTag "code".toList codeStyle
        ('<' :: "code".toList ++ [] ++ codeStyle ++ ['>']) =
      '<' :: "code".toList ++ [] ++ codeStyle ++ codeStyle ++ ['>'] ∧
    '<' :: "code".toList ++ [] ++ codeStyle ++ codeStyle ++ ['>'] ≠
      '<' :: "code".toList ++ [] ++ codeStyle ++ ['>'] :=
  inject_twice_duplicates_style "code".toList codeStyle []
    (by decide) (by decide) (by decide)

/-- C9 (counterexample): with the structured clipboard API available but
its write rejecting, the legacy selection-copy tier is skipped and the
handler jumps straight to manual guidance; and with the API unavailable
and `getSelection()` yielding nothing, the handler does nothing and shows
no message at all — a silent outcome. -/
theorem clipboard_tier_counterexample :
    (clipboardCommit ⟨true, false, true, true⟩).legacyAttempted = false ∧
    (clipboardCommit ⟨true, false, true, true⟩).manualGuidanceAlert = true ∧
    (clipboardCommit ⟨false, true, false, true⟩).successAlert = false ∧
    (clipboardCommit ⟨false, true, false, true⟩).manualGuidanceAlert = false ∧
    (clipboardCommit ⟨false, true, false, true⟩).legacyAttempted = false := by
  decide

/-- C9 (amended): the commit attempts the structured write when the API is
available, jumping directly to the manual-guidance catch on a write
failure (no legacy attempt); the legacy selection copy runs only when the
API is unavailable and a selection object exists, its failure reaching the
same guidance; with no API and no selection object, nothing is attempted
and nothing is surfaced. -/
theorem clipboard_tier_amended (e : ClipEnv) :
    (e.apiAvailable = true → e.writeOk = true →
      clipboardCommit e = ⟨true, false, true, false, false⟩) ∧
    (e.apiAvailable = true → e.writeOk = false →
      clipboardCommit e = ⟨true, false, false, true, e.selectionAvailable⟩) ∧
    (e.apiAvailable = false → e.selectionAvailable = true → e.execOk = true →
      clipboardCommit e = ⟨false, true, true, false, false⟩) ∧
    (e.apiAvailable = false → e.selectionAvailable = true → e.execOk = false →
      clipboardCommit e = ⟨false, true, false, true, true⟩) ∧
    (e.apiAvailable = false → e.selectionAvailable = false →
      clipboardCommit e = ⟨false, false, false, false, false⟩) := by
  obtain ⟨a, w, s, x⟩ := e
  cases a <;> cases w <;> cases s <;> cases x <;> decide

/-- C9 (witness): the amended statement in the all-available environment:
the structured write succeeds and nothing else runs. -/
theorem clipboard_tier_amended_witness :
    clipboardCommit ⟨true, true, true, true⟩ = ⟨true, false, true, false, false⟩ :=
  (clipboard_tier_amended ⟨true, true, true, true⟩).1 rfl rfl

set_option maxRecDepth 400000 in
/-- C10: the inline-code injection also rewrites the `<code>` opening tag
inside a `<pre>` code block — for any block content `c` (such as the
output of the Step C newline fix) in which the pattern `<code` does not
occur, the whole block is rewritten so that the block's `<code>` receives
the inline-code style attribute, which contains `white-space: nowrap`. -/
theorem inline_code_injection_hits_pre_code (c : List Char)
    (h : occursIn ('<' :: "code".toList) (c ++ "</code></pre>".toList) = false) :
    injectTag "code".toList codeStyle
        ("<pre><code>".toList ++ c ++ "</code></pre>".toList) =
      "<pre><code".toList ++ codeStyle ++ '>' :: (c ++ "</code></pre>".toList) ∧
    occursIn "white-space: nowrap".toList codeStyle = true := by
  constructor
  · have hskip : ∀ s : List Char,
        injectTag "code".toList codeStyle ('<' :: 'p' :: 'r' :: 'e' :: '>' :: s) =
          '<' :: 'p' :: 'r' :: 'e' :: '>' :: injectTag "code".toList codeStyle s := by
      intro s
      rw [injectTag_cons_nomatch "code".toList codeStyle '<'
        ('p' :: 'r' :: 'e' :: '>' :: s) (by rfl)]
      rw [injectTag_cons_nomatch "code".toList codeStyle 'p' ('r' :: 'e' :: '>' :: s) (by rfl)]
      rw [injectTag_cons_nomatch "code".toList codeStyle 'r' ('e' :: '>' :: s) (by rfl)]
      rw [injectTag_cons_nomatch "code".toList codeStyle 'e' ('>' :: s) (by rfl)]
      rw [injectTag_cons_nomatch "code".toList codeStyle '>' s (by rfl)]
    have hshape : "<pre><code>".toList ++ c ++ "</code></pre>".toList =
        '<' :: 'p' :: 'r' :: 'e' :: '>' ::
          ('<' :: "code".toList ++ [] ++ '>' :: (c ++ "</code></pre>".toList)) := by
      simp
    rw [hshape, hskip]
    rw [injectTag_match "code".toList codeStyle [] (c ++ "</code></pre>".toList) (by simp)]
    rw [injectTag_no_occur "code".toList codeStyle (c ++ "</code></pre>".toList) h]
    simp
  · decide

set_option maxRecDepth 400000 in
/-- C10 (witness): the block content `line1\nline2` after the Step C
newline fix. -/
theorem inline_code_injection_hits_pre_code_witness :
    injectTag "code".toList codeStyle
        ("<pre><code>".toList ++ fixNewlines "line1\nline2".toList ++
          "</code></pre>".toList) =
      "<pre><code".toList ++ codeStyle ++
        '>' :: (fixNewlines "line1\nline2".toList ++ "</code></pre>".toList) ∧
    occursIn "white-space: nowrap".toList codeStyle = true :=
  inline_code_injection_hits_pre_code (fixNewlines "line1\nline2".toList) (by decide)

end MD2Word
